import Mathlib

/-!
# emojiluna — verification of the AI enrichment pipeline core

Shallow embedding of the parts of `src/service.ts`, `src/backend.ts` and the
shared utilities (`src/unnamed/part_000`) that the frozen claims are about:
the durable AI task queue (claim / complete-fail / reset-stuck / retry-failed),
the worker loop, the metadata merge rule, ingest deduplication, the model
output JSON extraction cascade, and the by-name image lookup.

Machine state (database tables, the in-memory emoji index, the filesystem) is
modelled as explicit record/list state; asynchronous database calls become
pure state transformers; thrown exceptions become `Except` errors.  SHA-256
(`calculateFileHash`) is abstracted as a function parameter `hashHex`: the
claims rely only on it being a deterministic function of the bytes.
-/

/-! ## JavaScript primitives used by the source -/

/-- JS `a || b` on strings: the empty string is the only falsy string. -/
def jsOr (a b : String) : String := if a = "" then b else a

/-- Auxiliary for `jsNewSet`: iterate keeping elements not already seen. -/
def jsNewSetAux (seen : List String) : List String → List String
  | [] => []
  | x :: xs =>
    if x ∈ seen then jsNewSetAux seen xs
    else x :: jsNewSetAux (x :: seen) xs

/-- JS `[...new Set(list)]`: removes duplicates, keeping the first occurrence
of each element in iteration order. -/
def jsNewSet (l : List String) : List String := jsNewSetAux [] l

/-- Spec-side formulation (refinement target, from the spec's words
"distinct(tags_u ∪ tags_a) preserving first-occurrence order"): keep the first
occurrence of each element, dropping later duplicates. -/
def distinctFirstOccurrence : List String → List String
  | [] => []
  | x :: xs => x :: distinctFirstOccurrence (xs.filter (fun y => y ≠ x))
termination_by l => l.length
decreasing_by
  simp only [List.length_cons]
  exact Nat.lt_succ_of_le (List.length_filter_le _ _)

/-- JS `String.prototype.includes` (infix containment) on character lists. -/
def jsIncludes (hay needle : String) : Prop := needle.data <:+: hay.data

instance (hay needle : String) : Decidable (jsIncludes hay needle) := by
  unfold jsIncludes; infer_instance

/-! ## The `emojiluna_ai_tasks` table -/

/-- `AI_TASK_STATUS` from `service.ts`. -/
inductive AiTaskStatus where
  | pending
  | processing
  | succeeded
  | failed
deriving DecidableEq, Repr

/-- A row of the `emojiluna_ai_tasks` table (declared in the module
augmentation of `koishi`). -/
structure AiTaskRow where
  id : String
  emoji_id : String
  image_path : String
  image_hash : String
  status : AiTaskStatus
  attempts : Nat
  last_error : String
  next_retry_at : Nat
  created_at : Nat
  updated_at : Nat
deriving DecidableEq, Repr

/-- The task table: a list of rows (`id` is the primary key). -/
abbrev TaskDb := List AiTaskRow

/-- `database.get('emojiluna_ai_tasks', { status })`. -/
def dbGetTasksByStatus (db : TaskDb) (s : AiTaskStatus) : List AiTaskRow :=
  db.filter (fun r => r.status = s)

/-- `database.get('emojiluna_ai_tasks', { id })` followed by `rows[0]`:
first row with the given id. -/
def dbFindTask (db : TaskDb) (taskId : String) : Option AiTaskRow :=
  db.find? (fun r => r.id = taskId)

/-- `database.set('emojiluna_ai_tasks', taskId, patch)`: apply `patch` to
every row whose primary key matches `taskId`. -/
def dbSetTask (db : TaskDb) (taskId : String) (patch : AiTaskRow → AiTaskRow) :
    TaskDb :=
  db.map (fun r => if r.id = taskId then patch r else r)

/-! ## `tryAtomicClaim` (service.ts)

The source tries a driver-level conditional update first
(`update('emojiluna_ai_tasks').where({ id, status: PENDING }).set({ status:
PROCESSING, updated_at })`) and, when the driver lacks that builder, falls
back to a read-check-set by id.  Whether the builder exists depends on the
host database driver, so it is a boolean parameter here. -/

/-- The driver's conditional update: set `status = PROCESSING` on rows whose
`id` matches and whose current `status` is `PENDING`. -/
def dbConditionalClaim (db : TaskDb) (taskId : String) (now : Nat) : TaskDb :=
  db.map (fun r =>
    if r.id = taskId ∧ r.status = .pending then
      { r with status := .processing, updated_at := now }
    else r)

/-- `tryAtomicClaim(taskId)`.  Returns the reported success flag and the new
table state.  Note that on the conditional-update path the source returns
`true` without inspecting how many rows the update changed. -/
def tryAtomicClaim (hasUpdateBuilder : Bool) (db : TaskDb) (taskId : String)
    (now : Nat) : Bool × TaskDb :=
  if hasUpdateBuilder then
    (true, dbConditionalClaim db taskId now)
  else
    match dbFindTask db taskId with
    | none => (false, db)
    | some row =>
      if row.status ≠ .pending then (false, db)
      else
        (true, dbSetTask db taskId (fun r =>
          { r with status := .processing, updated_at := now }))

/-! ## Emoji, AI result and world state -/

/-- In-memory `EmojiItem` (the `_emojiStorage` values). -/
structure EmojiItem where
  id : String
  name : String
  category : String
  path : String
  size : Nat
  mimeType : String
  createdAt : Nat
  tags : List String
deriving DecidableEq, Repr

/-- Structured AI analysis result (`AIAnalyzeResult`). -/
structure AIAnalyzeResult where
  name : String
  category : String
  tags : List String
  description : String
deriving DecidableEq, Repr

/-- A row of the `emojiluna_emojis` table.  `tags` is stored serialized in the
source; it is modelled structurally here. -/
structure EmojiRow where
  id : String
  name : String
  category : String
  path : String
  size : Nat
  mime_type : String
  created_at : Nat
  tags : List String
  image_hash : String
deriving DecidableEq, Repr

/-- A row of the `emojiluna_ai_results` cache table.  `result_json` is
modelled as the structured result (JSON round-tripping is not itself under
test). -/
structure AiResultRow where
  hash : String
  result : AIAnalyzeResult
  created_at : Nat
deriving DecidableEq, Repr

/-- The mutable state the pipeline touches: the four stores plus the blob
directory, modelled as a path-to-bytes association list. -/
structure WorldState where
  tasks : TaskDb
  emojiMem : List EmojiItem
  emojiRows : List EmojiRow
  aiResults : List AiResultRow
  files : List (String × List Nat)
deriving DecidableEq, Repr

/-- Configuration options read by the pipeline core. -/
structure ServiceConfig where
  storagePath : String
  persistAiTasks : Bool
  autoCategorize : Bool
  aiConcurrency : Nat
  aiBatchDelay : Nat
  aiMaxAttempts : Nat
  aiBackoffBase : Nat
deriving DecidableEq, Repr

/-- `fs.readFile(path)`: the stored bytes, or `none` when the file is
missing (Node throws ENOENT; the caller's catch handles it). -/
def fsReadFile (files : List (String × List Nat)) (p : String) :
    Option (List Nat) :=
  (files.find? (fun f => f.1 = p)).map (fun f => f.2)

/-- `updateEmojiInfo(id, {name, category, tags})`: updates the in-memory item
and upserts the `emojiluna_emojis` row by primary key; a no-op when the id is
not in `_emojiStorage`.  (Category-count maintenance is outside the claims
under verification.) -/
def updateEmojiInfo (w : WorldState) (id : String) (name category : String)
    (tags : List String) : WorldState :=
  match w.emojiMem.find? (fun e => e.id = id) with
  | none => w
  | some _ =>
    { w with
      emojiMem := w.emojiMem.map (fun e =>
        if e.id = id then
          { e with name := name, category := category, tags := tags }
        else e)
      emojiRows := w.emojiRows.map (fun r =>
        if r.id = id then
          { r with name := name, category := category, tags := tags }
        else r) }

/-- `database.upsert('emojiluna_ai_results', [{hash, result_json, created_at}])`:
replace the row with that hash, or append a new one. -/
def dbUpsertAiResult (rs : List AiResultRow) (h : String)
    (res : AIAnalyzeResult) (now : Nat) : List AiResultRow :=
  if rs.any (fun r => r.hash = h) then
    rs.map (fun r =>
      if r.hash = h then { r with result := res, created_at := now } else r)
  else rs ++ [⟨h, res, now⟩]

/-! ## `processAiTask` and its failure handler (service.ts) -/

/-- Node's error message for reading a missing file. -/
def enoentMessage (p : String) : String :=
  "ENOENT: no such file or directory, open " ++ p

/-- The error thrown when `analyzeEmoji` yields no result. -/
def aiNullMessage : String := "AI Analysis returned null"

/-- The catch-block of `processAiTask`: increment `attempts` from the fetched
row, decide FAILED vs PENDING against `aiMaxAttempts`, compute the exponential
backoff `aiBackoffBase * 2^(attempts-1)`, and store the error. -/
def completeFailPatch (cfg : ServiceConfig) (task : AiTaskRow)
    (errMsg : String) (now : Nat) : AiTaskRow → AiTaskRow :=
  let attempts := task.attempts + 1
  let status : AiTaskStatus :=
    if cfg.aiMaxAttempts ≤ attempts then .failed else .pending
  let backoff := cfg.aiBackoffBase * 2 ^ (attempts - 1)
  fun r =>
    { r with
      status := status
      attempts := attempts
      last_error := errMsg
      next_retry_at := now + backoff
      updated_at := now }

/-- Apply the failure handler to the task's row in the table. -/
def completeFailTask (cfg : ServiceConfig) (w : WorldState) (task : AiTaskRow)
    (errMsg : String) (now : Nat) : WorldState :=
  { w with tasks := dbSetTask w.tasks task.id (completeFailPatch cfg task errMsg now) }

/-- Success path: update the emoji (worker-side merge rule) when the image is
still live, then upsert the result cache row. -/
def workerApplyResult (w : WorldState) (task : AiTaskRow)
    (result : AIAnalyzeResult) (now : Nat) : WorldState :=
  let w1 :=
    if task.emoji_id = "" then w
    else
      match w.emojiMem.find? (fun e => e.id = task.emoji_id) with
      | none => w
      | some emoji =>
        let newTags := jsNewSet (emoji.tags ++ result.tags)
        updateEmojiInfo w task.emoji_id (jsOr result.name emoji.name)
          (jsOr result.category emoji.category) newTags
  if task.image_hash = "" then w1
  else
    { w1 with aiResults := dbUpsertAiResult w1.aiResults task.image_hash result now }

/-- `processAiTask(task)`.  The vision client (`analyzeEmoji`, which returns
null on any model error) is a function parameter.  The in-process
`_processingSet` guard and active-count bookkeeping live in the worker loop
model below. -/
def processAiTask (cfg : ServiceConfig)
    (analyze : List Nat → Option AIAnalyzeResult)
    (w : WorldState) (task : AiTaskRow) (now : Nat) : WorldState :=
  let w1 := { w with tasks := dbSetTask w.tasks task.id (fun r =>
    { r with status := .processing, updated_at := now }) }
  match fsReadFile w1.files task.image_path with
  | none => completeFailTask cfg w1 task (enoentMessage task.image_path) now
  | some buffer =>
    match analyze buffer with
    | none => completeFailTask cfg w1 task aiNullMessage now
    | some result =>
      let w2 := workerApplyResult w1 task result now
      { w2 with tasks := dbSetTask w2.tasks task.id (fun r =>
          { r with status := .succeeded, updated_at := now }) }

/-! ## Worker startup and the polling loop (startAiTaskProcessor) -/

/-- The startup reset in `startAiTaskProcessor`: select the PROCESSING rows,
then set each selected id back to PENDING. -/
def resetStuckTasks (db : TaskDb) (now : Nat) : TaskDb :=
  (dbGetTasksByStatus db .processing).foldl
    (fun acc t => dbSetTask acc t.id (fun r =>
      { r with status := .pending, updated_at := now }))
    db

/-- The head of `startAiTaskProcessor`, run before the polling loop: bail out
when the loop flag is already set, otherwise set it and reset stuck tasks.
Returns the new `_aiTaskLoopRunning` flag and table. -/
def startAiTaskProcessorStartup (aiTaskLoopRunning : Bool) (db : TaskDb)
    (now : Nat) : Bool × TaskDb :=
  if aiTaskLoopRunning then (aiTaskLoopRunning, db)
  else (true, resetStuckTasks db now)

/-- The worker's in-process mutable state: `_aiPaused`, `_isDisposed`,
`_localActiveCount` and `_runtimeConfig`. -/
structure WorkerRuntime where
  aiPaused : Bool
  isDisposed : Bool
  localActiveCount : Nat
  runtimeConcurrency : Int
  runtimeBatchDelay : Int
deriving DecidableEq, Repr

/-- `setAiPaused(paused)`. -/
def setAiPaused (st : WorkerRuntime) (paused : Bool) : WorkerRuntime :=
  { st with aiPaused := paused }

/-- Effective concurrency: the runtime override when positive, else the
configured `aiConcurrency`. -/
def effectiveConcurrency (cfg : ServiceConfig) (st : WorkerRuntime) : Nat :=
  if 0 < st.runtimeConcurrency then st.runtimeConcurrency.toNat
  else cfg.aiConcurrency

/-- Stable insertion of a row into a list already ordered by `created_at`,
placing it after earlier rows with equal keys. -/
def insertByCreatedAt (t : AiTaskRow) : List AiTaskRow → List AiTaskRow
  | [] => [t]
  | x :: xs =>
    if x.created_at ≤ t.created_at then x :: insertByCreatedAt t xs
    else t :: x :: xs

/-- The DB query's `sort: { created_at: 'asc' }`: a stable sort. -/
def sortByCreatedAt (l : List AiTaskRow) : List AiTaskRow :=
  l.foldl (fun acc t => insertByCreatedAt t acc) []

/-- Step 4 of the loop: `database.get('emojiluna_ai_tasks', { status:
PENDING, next_retry_at: { $lte: now } }, { limit, sort })`. -/
def fetchPendingTasks (db : TaskDb) (now : Nat) (limit : Nat) :
    List AiTaskRow :=
  (sortByCreatedAt (db.filter (fun r =>
    r.status = .pending ∧ r.next_retry_at ≤ now))).take limit

/-- Step 5 of the loop: walk the fetched rows, re-checking pause/dispose and
local capacity, attempting `tryAtomicClaim` on each, and dispatching the
claimed ones.  Dispatched tasks run asynchronously; the model records the
dispatched ids.  `_localActiveCount` is incremented per dispatch (it is
decremented later by the task's `finally` block, outside this iteration). -/
def claimBatch (hasUpdateBuilder : Bool) (st : WorkerRuntime) (db : TaskDb)
    (concurrency : Nat) (now : Nat) :
    List AiTaskRow → WorkerRuntime × TaskDb × List String
  | [] => (st, db, [])
  | task :: rest =>
    if st.aiPaused ∨ st.isDisposed then (st, db, [])
    else if concurrency ≤ st.localActiveCount then (st, db, [])
    else
      let claimed := tryAtomicClaim hasUpdateBuilder db task.id now
      if claimed.1 then
        let st1 := { st with localActiveCount := st.localActiveCount + 1 }
        let next := claimBatch hasUpdateBuilder st1 claimed.2 concurrency now rest
        (next.1, next.2.1, task.id :: next.2.2)
      else
        claimBatch hasUpdateBuilder st claimed.2 concurrency now rest

/-- One iteration of the `while (!this._isDisposed)` loop, abstracted to its
effects on the task table: the pause/persistence guard, the concurrency and
capacity checks, the over-fetch (`2 * (concurrency - active)`), and the claim
batch.  Sleeps have no state effect and are dropped. -/
def workerLoopIteration (cfg : ServiceConfig) (hasUpdateBuilder : Bool)
    (st : WorkerRuntime) (db : TaskDb) (now : Nat) :
    WorkerRuntime × TaskDb × List String :=
  if ¬cfg.persistAiTasks ∨ st.aiPaused then (st, db, [])
  else
    let concurrency := effectiveConcurrency cfg st
    if concurrency ≤ st.localActiveCount then (st, db, [])
    else
      let tasksToFetch := (concurrency - st.localActiveCount) * 2
      let tasks := fetchPendingTasks db now tasksToFetch
      if tasks.length = 0 then (st, db, [])
      else claimBatch hasUpdateBuilder st db concurrency now tasks

/-- Run the loop for one iteration per entry of `times` (the successive
`Date.now()` readings), accumulating the dispatched task ids. -/
def workerLoopRun (cfg : ServiceConfig) (hasUpdateBuilder : Bool) :
    WorkerRuntime → TaskDb → List Nat → WorkerRuntime × TaskDb × List String
  | st, db, [] => (st, db, [])
  | st, db, now :: rest =>
    let step := workerLoopIteration cfg hasUpdateBuilder st db now
    let next := workerLoopRun cfg hasUpdateBuilder step.1 step.2.1 rest
    (next.1, next.2.1, step.2.2 ++ next.2.2)

/-! ## Stats and operator retry (service.ts) -/

/-- `getAiTaskStats()` (the four status counts; `paused` and the runtime
config echo are carried by `WorkerRuntime`). -/
structure AiTaskStats where
  pending : Nat
  processing : Nat
  succeeded : Nat
  failed : Nat
deriving DecidableEq, Repr

/-- The four `$.count` queries of `getAiTaskStats`. -/
def getAiTaskStats (db : TaskDb) : AiTaskStats :=
  { pending := (db.filter (fun r => r.status = .pending)).length
    processing := (db.filter (fun r => r.status = .processing)).length
    succeeded := (db.filter (fun r => r.status = .succeeded)).length
    failed := (db.filter (fun r => r.status = .failed)).length }

/-- `retryFailedTasks()`: select the FAILED rows; for each, set by id
`status := PENDING, attempts := 0, next_retry_at := Date.now(), updated_at :=
Date.now()`; return how many rows were selected. -/
def retryFailedTasks (db : TaskDb) (now : Nat) : Nat × TaskDb :=
  let failedTasks := dbGetTasksByStatus db .failed
  if failedTasks.length = 0 then (0, db)
  else
    (failedTasks.length,
     failedTasks.foldl
       (fun acc t => dbSetTask acc t.id (fun r =>
         { r with status := .pending, attempts := 0, next_retry_at := now,
                  updated_at := now }))
       db)

/-! ## Format detection (`getImageType`, part_000)

The source base64-encodes the first 10 bytes of the buffer and matches the
result against the base64 forms of the four magic-byte prefixes. -/

/-- The standard base64 alphabet. -/
def base64Alphabet : List Char :=
  "ABCDEFGHIJKLMNOPQRSTUVWXYZabcdefghijklmnopqrstuvwxyz0123456789+/".data

/-- The base64 digit for a 6-bit value. -/
def base64Char (n : Nat) : Char := base64Alphabet.getD n 'A'

/-- Base64 encoding (with padding) of a byte list. -/
def base64Encode : List Nat → List Char
  | [] => []
  | [b0] =>
    [base64Char (b0 / 4), base64Char (b0 % 4 * 16), '=', '=']
  | [b0, b1] =>
    [base64Char (b0 / 4), base64Char (b0 % 4 * 16 + b1 / 16),
     base64Char (b1 % 16 * 4), '=']
  | b0 :: b1 :: b2 :: rest =>
    base64Char (b0 / 4) :: base64Char (b0 % 4 * 16 + b1 / 16) ::
    base64Char (b1 % 16 * 4 + b2 / 64) :: base64Char (b2 % 64) ::
    base64Encode rest

/-- `getImageType(buffer, pure)` from the shared utilities: detect
png/jpeg/gif/webp from the base64 of the first 10 bytes, falling back to
jpeg. -/
def getImageType (buffer : List Nat) (pureExt : Bool) : String :=
  let type := String.mk (base64Encode (buffer.take 10))
  if type.startsWith "iVBORw0KGgoAAAANSUhEUg" then
    if pureExt then "png" else "image/png"
  else if type.startsWith "/9j/4AAQSkZJRg" then
    if pureExt then "jpeg" else "image/jpeg"
  else if type.startsWith "R0lGOD" then
    if pureExt then "gif" else "image/gif"
  else if type.startsWith "UklGRg" then
    if pureExt then "webp" else "image/webp"
  else if pureExt then "jpeg" else "image/jpeg"

/-! ## The merge rule (addEmoji cache hit / legacy inline analysis) -/

/-- User-supplied ingest options (`EmojiAddOptions`); optional fields are
modelled as `""` / `[]` when absent. -/
structure EmojiAddOptions where
  name : String
  category : String
  tags : List String
  description : String
deriving DecidableEq, Repr

/-- The object literal `{ name: result.name || options.name, category:
result.category || options.category || '其他', tags: [...new Set([...
options.tags, ...result.tags])], description: result.description }`, written
identically at the cache-hit and the legacy inline-analysis sites of
`addEmoji` and at the cache-hit site of `addEmojiFromPath`. -/
def mergeCachedResult (options : EmojiAddOptions) (result : AIAnalyzeResult) :
    EmojiAddOptions :=
  { name := jsOr result.name options.name
    category := jsOr result.category (jsOr options.category "其他")
    tags := jsNewSet (options.tags ++ result.tags)
    description := result.description }

/-- Spec-side merge rule (refinement target, from the spec's words):
`name = name_a` if non-empty else `name_u`. -/
def specMergeName (nameU nameA : String) : String :=
  if nameA ≠ "" then nameA else nameU

/-- Spec-side merge rule: `category_a` if non-empty, else `category_u` if
non-empty, else `"其他"`. -/
def specMergeCategory (catU catA : String) : String :=
  if catA ≠ "" then catA else if catU ≠ "" then catU else "其他"

/-- Spec-side merge rule: duplicate-free union of `tags_u` then `tags_a`
preserving first-occurrence order. -/
def specMergeTags (tagsU tagsA : List String) : List String :=
  distinctFirstOccurrence (tagsU ++ tagsA)

/-! ## `addEmoji` (ingest from bytes, service.ts) -/

/-- The duplicate-reject error message thrown by `addEmoji` and
`addEmojiFromPath`. -/
def duplicateMessage (existingName : String) : String :=
  "表情包已存在: 与现有表情包 " ++ existingName ++ " 重复"

/-- The upload endpoint's catch block (backend.ts): map a thrown message to
an HTTP status via `String.prototype.includes`. -/
def uploadErrorStatus (msg : String) : Nat :=
  if jsIncludes msg "No file uploaded" ∨ jsIncludes msg "parsing failed" then 400
  else if jsIncludes msg "表情包已存在" then 409
  else 500

/-- Identifiers produced by `randomUUID()` during one `addEmoji` call. -/
structure FreshIds where
  emojiId : String
  taskId : String
deriving DecidableEq, Repr

/-- `database.upsert('emojiluna_emojis', [row])`: replace by primary key or
append. -/
def dbUpsertEmojiRow (rows : List EmojiRow) (row : EmojiRow) : List EmojiRow :=
  if rows.any (fun r => r.id = row.id) then
    rows.map (fun r => if r.id = row.id then row else r)
  else rows ++ [row]

/-- The AI branch of `addEmoji`: cache lookup or task insert when
persistence is on, the legacy inline analysis when it is off, and the
auto-categorize fallback.  Returns the final options together with the
(possibly task-extended) state. -/
def addEmojiAiBranch (cfg : ServiceConfig)
    (analyze : List Nat → Option AIAnalyzeResult)
    (categorize : List Nat → Option String)
    (w1 : WorldState) (options : EmojiAddOptions) (imageData : List Nat)
    (aiAnalysis : Bool) (id taskId imageHash filePath : String) (now : Nat) :
    Except String (EmojiAddOptions × WorldState) :=
  if aiAnalysis ∧ cfg.persistAiTasks then
    match w1.aiResults.find? (fun r => r.hash = imageHash) with
    | some cached => .ok (mergeCachedResult options cached.result, w1)
    | none =>
      .ok (options,
        { w1 with tasks := w1.tasks ++ [{
            id := taskId, emoji_id := id, image_path := filePath,
            image_hash := imageHash, status := .pending, attempts := 0,
            last_error := "", next_retry_at := 0, created_at := now,
            updated_at := now }] })
  else if aiAnalysis then
    match analyze imageData with
    | some aiResult => .ok (mergeCachedResult options aiResult, w1)
    | none => .error "AI分析失败，无法添加表情包"
  else if cfg.autoCategorize ∧ options.category = "" then
    match categorize imageData with
    | some category =>
      .ok ({ options with category := category }, w1)
    | none => .error "AI分类失败，无法添加表情包"
  else .ok (options, w1)

/-- `addEmoji(options, imageData, aiAnalysis)`.  SHA-256 is the parameter
`hashHex`; the vision calls (`analyzeEmoji`, `categorizeEmoji`) are the
parameters `analyze` and `categorize` (`none` models a null result).  Steps,
in source order: hash and duplicate-check (before the file write), file
write, the AI branch, then the row insert. -/
def addEmoji (cfg : ServiceConfig) (hashHex : List Nat → String)
    (analyze : List Nat → Option AIAnalyzeResult)
    (categorize : List Nat → Option String)
    (w : WorldState) (options : EmojiAddOptions) (imageData : List Nat)
    (aiAnalysis : Bool) (ids : FreshIds) (now : Nat) :
    Except String (EmojiItem × WorldState) :=
  let id := ids.emojiId
  let mimeType := getImageType imageData false
  let extension := getImageType imageData true
  let filePath := cfg.storagePath ++ "/" ++ id ++ "." ++ extension
  let imageHash := hashHex imageData
  match w.emojiRows.filter (fun r => r.image_hash = imageHash) with
  | existing0 :: _ => .error (duplicateMessage existing0.name)
  | [] =>
    let w1 := { w with files := w.files ++ [(filePath, imageData)] }
    match addEmojiAiBranch cfg analyze categorize w1 options imageData
        aiAnalysis id ids.taskId imageHash filePath now with
    | .error e => .error e
    | .ok (finalOptions, w2) =>
      let emoji : EmojiItem :=
        { id := id, name := finalOptions.name
          category := jsOr finalOptions.category "其他"
          path := filePath, size := imageData.length, mimeType := mimeType
          createdAt := now, tags := finalOptions.tags }
      let row : EmojiRow :=
        { id := id, name := emoji.name, category := emoji.category
          path := filePath, size := emoji.size, mime_type := mimeType
          created_at := now, tags := emoji.tags, image_hash := imageHash }
      .ok (emoji,
        { w2 with
          emojiMem := w2.emojiMem ++ [emoji]
          emojiRows := dbUpsertEmojiRow w2.emojiRows row })

/-! ## By-id/by-name lookup and the `GET /get/:id` endpoint -/

/-- `getEmojiById(id)`: `_emojiStorage[id]`. -/
def getEmojiById (storage : List EmojiItem) (id : String) : Option EmojiItem :=
  storage.find? (fun e => e.id = id)

/-- `getEmojiByName(name)`: the first stored emoji whose name, any tag,
category, or id equals the argument. -/
def getEmojiByName (storage : List EmojiItem) (name : String) :
    Option EmojiItem :=
  storage.find? (fun e =>
    e.name = name ∨ e.tags.any (fun tag => tag = name) ∨
    e.category = name ∨ e.id = name)

/-- The endpoint's lookup: `getEmojiById(id) || getEmojiByName(id)`. -/
def getByIdOrName (storage : List EmojiItem) (idParam : String) :
    Option EmojiItem :=
  match getEmojiById storage idParam with
  | some e => some e
  | none => getEmojiByName storage idParam

/-- Responses of the image-bytes endpoints. -/
inductive HttpImageResponse where
  | notFound
  | uncaughtError
  | bytes (mimeType : String) (body : List Nat)
deriving DecidableEq, Repr

/-- The `GET /get/:id` handler: look up by id then by name; 404 when absent;
otherwise serve the file bytes with `emoji.mimeType || getImageType(buffer)`
(an unreadable file escapes the handler as an uncaught error). -/
def getEndpoint (storage : List EmojiItem) (files : List (String × List Nat))
    (idParam : String) : HttpImageResponse :=
  match getByIdOrName storage idParam with
  | none => .notFound
  | some emoji =>
    match fsReadFile files emoji.path with
    | none => .uncaughtError
    | some buffer => .bytes (jsOr emoji.mimeType (getImageType buffer false)) buffer

/-! ## Model-output JSON extraction (part_000: `tryParse`, `extractors`;
service.ts: `parseAIResult`)

`JSON.parse` is modelled as a recursive-descent parser over the character
list; numbers are kept as mantissa × 10^exponent, which is exact for JSON
literals and suffices to decide JS truthiness. -/

/-- Left and right curly-brace characters. -/
def lbraceChar : Char := Char.ofNat 123

def rbraceChar : Char := Char.ofNat 125

/-- The backtick character. -/
def backtickChar : Char := Char.ofNat 96

/-- JS `\s` / `trim` whitespace (the ASCII and Latin-1 members; the exotic
Unicode space characters do not occur in the inputs under test). -/
def jsWhitespace (c : Char) : Bool :=
  c = ' ' ∨ c = '\t' ∨ c = '\n' ∨ c = '\r' ∨
  c = Char.ofNat 11 ∨ c = Char.ofNat 12 ∨ c = Char.ofNat 160 ∨
  c = Char.ofNat 0xFEFF

/-- `String.prototype.trim`. -/
def jsTrim (s : String) : String :=
  String.mk (((s.data.dropWhile jsWhitespace).reverse.dropWhile
    jsWhitespace).reverse)

/-- JSON values. -/
inductive JsonValue where
  | null
  | bool (b : Bool)
  | num (mantissa : Int) (exp10 : Int)
  | str (s : String)
  | arr (elems : List JsonValue)
  | obj (fields : List (String × JsonValue))
deriving BEq, Repr

/-- JSON's own insignificant whitespace (RFC 8259). -/
def jsonWs (c : Char) : Bool :=
  c = ' ' ∨ c = '\t' ∨ c = '\n' ∨ c = '\r'

def skipJsonWs (cs : List Char) : List Char := cs.dropWhile jsonWs

def isDigitChar (c : Char) : Bool := '0' ≤ c ∧ c ≤ '9'

def digitVal (c : Char) : Nat := c.toNat - 48

def hexVal (c : Char) : Option Nat :=
  if '0' ≤ c ∧ c ≤ '9' then some (c.toNat - 48)
  else if 'a' ≤ c ∧ c ≤ 'f' then some (c.toNat - 87)
  else if 'A' ≤ c ∧ c ≤ 'F' then some (c.toNat - 55)
  else none

def takeDigits (cs : List Char) : List Char × List Char :=
  (cs.takeWhile isDigitChar, cs.dropWhile isDigitChar)

def digitsToNat (ds : List Char) : Nat :=
  ds.foldl (fun a c => a * 10 + digitVal c) 0

/-- Parse the body of a JSON string (after the opening quote); returns the
decoded characters and the remainder after the closing quote. -/
def parseJsonStringAux : Nat → List Char → Option (List Char × List Char)
  | 0, _ => none
  | _, [] => none
  | fuel + 1, c :: cs =>
    if c = '"' then some ([], cs)
    else if c = '\\' then
      match cs with
      | [] => none
      | e :: cs2 =>
        let esc : Option (Char × List Char) :=
          if e = '"' then some ('"', cs2)
          else if e = '\\' then some ('\\', cs2)
          else if e = '/' then some ('/', cs2)
          else if e = 'b' then some (Char.ofNat 8, cs2)
          else if e = 'f' then some (Char.ofNat 12, cs2)
          else if e = 'n' then some ('\n', cs2)
          else if e = 'r' then some ('\r', cs2)
          else if e = 't' then some ('\t', cs2)
          else if e = 'u' then
            match cs2 with
            | h1 :: h2 :: h3 :: h4 :: cs3 =>
              match hexVal h1, hexVal h2, hexVal h3, hexVal h4 with
              | some v1, some v2, some v3, some v4 =>
                some (Char.ofNat (v1 * 4096 + v2 * 256 + v3 * 16 + v4), cs3)
              | _, _, _, _ => none
            | _ => none
          else none
        match esc with
        | none => none
        | some (ch, rest) =>
          match parseJsonStringAux fuel rest with
          | none => none
          | some (tail, r) => some (ch :: tail, r)
    else if c.toNat < 32 then none
    else
      match parseJsonStringAux fuel cs with
      | none => none
      | some (tail, r) => some (c :: tail, r)

/-- Parse a JSON number literal (JSON grammar: no leading zeros, no bare
`.5` or `5.`). -/
def parseJsonNumber (cs : List Char) : Option (JsonValue × List Char) :=
  let signed : Bool × List Char :=
    match cs with
    | c :: t => if c = '-' then (true, t) else (false, cs)
    | [] => (false, cs)
  let neg := signed.1
  let (intDigits, cs2) := takeDigits signed.2
  if intDigits.isEmpty then none
  else if 1 < intDigits.length ∧ intDigits.headD 'x' = '0' then none
  else
    let afterFrac : Option (List Char × List Char) :=
      match cs2 with
      | c :: t =>
        if c = '.' then
          let (fd, r) := takeDigits t
          if fd.isEmpty then none else some (fd, r)
        else some ([], cs2)
      | [] => some ([], cs2)
    match afterFrac with
    | none => none
    | some (fracDigits, cs3) =>
      let afterExp : Option (Int × List Char) :=
        match cs3 with
        | c :: t =>
          if c = 'e' ∨ c = 'E' then
            let signedExp : Int × List Char :=
              match t with
              | s :: t2 =>
                if s = '+' then (1, t2)
                else if s = '-' then (-1, t2)
                else (1, t)
              | [] => (1, t)
            let (ed, r) := takeDigits signedExp.2
            if ed.isEmpty then none
            else some (signedExp.1 * (digitsToNat ed : Int), r)
          else some (0, cs3)
        | [] => some (0, cs3)
      match afterExp with
      | none => none
      | some (expVal, cs4) =>
        let mantNat := digitsToNat (intDigits ++ fracDigits)
        let mant : Int := if neg then -(mantNat : Int) else (mantNat : Int)
        some (.num mant (expVal - (fracDigits.length : Int)), cs4)

mutual

/-- Parse one JSON value (leading whitespace allowed). -/
def parseJsonValue : Nat → List Char → Option (JsonValue × List Char)
  | 0, _ => none
  | fuel + 1, cs =>
    match skipJsonWs cs with
    | [] => none
    | c :: rest =>
      if c = 'n' then
        match rest with
        | 'u' :: 'l' :: 'l' :: r => some (.null, r)
        | _ => none
      else if c = 't' then
        match rest with
        | 'r' :: 'u' :: 'e' :: r => some (.bool true, r)
        | _ => none
      else if c = 'f' then
        match rest with
        | 'a' :: 'l' :: 's' :: 'e' :: r => some (.bool false, r)
        | _ => none
      else if c = '"' then
        match parseJsonStringAux (rest.length + 1) rest with
        | none => none
        | some (content, r) => some (.str (String.mk content), r)
      else if c = '[' then
        match skipJsonWs rest with
        | ']' :: r => some (.arr [], r)
        | other => parseJsonElements fuel other
      else if c = lbraceChar then
        match skipJsonWs rest with
        | d :: r =>
          if d = rbraceChar then some (.obj [], r)
          else parseJsonMembers fuel (d :: r)
        | [] => none
      else parseJsonNumber (c :: rest)

/-- Parse the elements of a non-empty array (after the opening bracket). -/
def parseJsonElements : Nat → List Char → Option (JsonValue × List Char)
  | 0, _ => none
  | fuel + 1, cs =>
    match parseJsonValue fuel cs with
    | none => none
    | some (v, rest) =>
      match skipJsonWs rest with
      | ',' :: r =>
        match parseJsonElements fuel r with
        | some (.arr vs, r2) => some (.arr (v :: vs), r2)
        | _ => none
      | ']' :: r => some (.arr [v], r)
      | _ => none

/-- Parse the members of a non-empty object (after the opening brace). -/
def parseJsonMembers : Nat → List Char → Option (JsonValue × List Char)
  | 0, _ => none
  | fuel + 1, cs =>
    match skipJsonWs cs with
    | '"' :: afterQuote =>
      match parseJsonStringAux (afterQuote.length + 1) afterQuote with
      | none => none
      | some (key, afterKey) =>
        match skipJsonWs afterKey with
        | ':' :: afterColon =>
          match parseJsonValue fuel afterColon with
          | none => none
          | some (v, rest) =>
            match skipJsonWs rest with
            | ',' :: r =>
              match parseJsonMembers fuel r with
              | some (.obj kvs, r2) =>
                some (.obj ((String.mk key, v) :: kvs), r2)
              | _ => none
            | d :: r =>
              if d = rbraceChar then some (.obj [(String.mk key, v)], r)
              else none
            | [] => none
        | _ => none
    | _ => none

end

/-- `JSON.parse(s)`: one value, with only whitespace allowed after it. -/
def jsonParse (s : String) : Option JsonValue :=
  match parseJsonValue (s.length + 1) s.data with
  | none => none
  | some (v, rest) => if (skipJsonWs rest).isEmpty then some v else none

/-- `tryParse(text)` from part_000: `JSON.parse(text.trim())`, `null` on a
parse error. -/
def tryParse (text : String) : Option JsonValue :=
  jsonParse (jsTrim text)

/-- Extractor 1: `text.trim()`. -/
def extractorTrim (s : String) : String := jsTrim s

/-- One match of the fence regex: three backticks, an optional `json`/`JSON`
tag, then greedy whitespace.  Returns the remainder after the match. -/
def fenceMatchRest (cs : List Char) : Option (List Char) :=
  match cs with
  | b1 :: b2 :: b3 :: rest =>
    if b1 = backtickChar ∧ b2 = backtickChar ∧ b3 = backtickChar then
      let afterTag :=
        match rest with
        | 'j' :: 's' :: 'o' :: 'n' :: r => r
        | 'J' :: 'S' :: 'O' :: 'N' :: r => r
        | _ => rest
      some (afterTag.dropWhile jsWhitespace)
    else none
  | _ => none

/-- Global replacement of the fence regex by the empty string (left-to-right
scan, as `String.prototype.replace` with the `g` flag). -/
def replaceFences : Nat → List Char → List Char
  | 0, cs => cs
  | _, [] => []
  | fuel + 1, c :: cs =>
    match fenceMatchRest (c :: cs) with
    | some rest => replaceFences fuel rest
    | none => c :: replaceFences fuel cs

/-- Replacement of a trailing-fence match (three backticks followed only by
whitespace up to the end of the string) by the empty string. -/
def stripTrailingFenceAux : List Char → List Char
  | [] => []
  | c :: cs =>
    if c = backtickChar ∧ cs.take 2 = [backtickChar, backtickChar] ∧
        (cs.drop 2).all jsWhitespace then []
    else c :: stripTrailingFenceAux cs

/-- Extractor 2: strip code fences (the two chained regex replacements). -/
def extractorStripFences (s : String) : String :=
  String.mk (stripTrailingFenceAux (replaceFences s.data.length s.data))

/-- JS `indexOf` over characters (−1 when absent). -/
def jsIndexOf (cs : List Char) (c : Char) : Int :=
  match cs.findIdx? (fun x => x = c) with
  | some i => (i : Int)
  | none => -1

/-- JS `lastIndexOf` over characters (−1 when absent). -/
def jsLastIndexOf (cs : List Char) (c : Char) : Int :=
  match cs.reverse.findIdx? (fun x => x = c) with
  | some i => ((cs.length - 1 - i : Nat) : Int)
  | none => -1

/-- Extractor 3: substring from the first brace to the last closing brace,
when both exist in that order; the input otherwise. -/
def extractorOuterBraces (s : String) : String :=
  let cs := s.data
  let start := jsIndexOf cs lbraceChar
  let stop := jsLastIndexOf cs rbraceChar
  if start ≠ -1 ∧ stop ≠ -1 ∧ start < stop then
    String.mk ((cs.take (stop.toNat + 1)).drop start.toNat)
  else s

/-- The balanced-brace scan from the first brace: position of the matching
closing brace, if any.  `pos` is the absolute index of the list head. -/
def balancedScanAux : Nat → Nat → List Char → Option Nat
  | _, _, [] => none
  | count, pos, c :: cs =>
    if c = lbraceChar then balancedScanAux (count + 1) (pos + 1) cs
    else if c = rbraceChar then
      if count = 1 then some pos
      else balancedScanAux (count - 1) (pos + 1) cs
    else balancedScanAux count (pos + 1) cs

/-- Extractor 4: substring up to the brace matching the first opening brace;
the input when there is no opening brace or no balanced match. -/
def extractorBalancedBraces (s : String) : String :=
  let cs := s.data
  match cs.findIdx? (fun x => x = lbraceChar) with
  | none => s
  | some start =>
    match balancedScanAux 0 start (cs.drop start) with
    | some stop => String.mk ((cs.take (stop + 1)).drop start)
    | none => s

/-- The ordered extractor cascade of part_000. -/
def extractors : List (String → String) :=
  [extractorTrim, extractorStripFences, extractorOuterBraces,
   extractorBalancedBraces]

/-- JS truthiness of a parsed JSON value (`if (parsed)`). -/
def jsTruthy : JsonValue → Bool
  | .null => false
  | .bool b => b
  | .num m _ => m ≠ 0
  | .str s => s ≠ ""
  | .arr _ => true
  | .obj _ => true

/-- The loop body of `parseAIResult`: try each extractor's output in order,
returning the first parse the `if (parsed)` test accepts. -/
def parseAIResultAux : List (String → String) → String → Option JsonValue
  | [], _ => none
  | ex :: rest, result =>
    match tryParse (ex result) with
    | some parsed =>
      if jsTruthy parsed then some parsed else parseAIResultAux rest result
    | none => parseAIResultAux rest result

/-- `parseAIResult(result)` from service.ts. -/
def parseAIResult (result : String) : Option JsonValue :=
  parseAIResultAux extractors result

/-- Spec-side reformulation (refinement target): the parse of one extracted
string when it is valid JSON *and* JS-truthy; `none` otherwise. -/
def truthyParse (s : String) : Option JsonValue :=
  match tryParse s with
  | some v => if jsTruthy v then some v else none
  | none => none

/-! ## Concrete fixtures used to exercise the model -/

/-- A freshly enqueued PENDING task row. -/
def c1Task : AiTaskRow :=
  { id := "t1", emoji_id := "e1", image_path := "/data/emojiluna/e1.png",
    image_hash := "h1", status := .pending, attempts := 0, last_error := "",
    next_retry_at := 0, created_at := 0, updated_at := 0 }

/-- The configuration of spec scenario 4: `aiMaxAttempts = 3`,
`aiBackoffBase = 1000`. -/
def c2Config : ServiceConfig :=
  { storagePath := "/data/emojiluna", persistAiTasks := true,
    autoCategorize := false, aiConcurrency := 3, aiBatchDelay := 300,
    aiMaxAttempts := 3, aiBackoffBase := 1000 }

/-- One enqueued task whose image file exists. -/
def c2Task : AiTaskRow :=
  { id := "task1", emoji_id := "emoji1",
    image_path := "/data/emojiluna/emoji1.png", image_hash := "hash1",
    status := .pending, attempts := 0, last_error := "", next_retry_at := 0,
    created_at := 0, updated_at := 0 }

/-- World containing `c2Task` and its image file. -/
def c2World : WorldState :=
  { tasks := [c2Task], emojiMem := [], emojiRows := [], aiResults := []
    files := [("/data/emojiluna/emoji1.png", [1, 2, 3])] }

/-- One worker round of spec scenario 4: fetch the task row afresh and
process it with a vision client that always fails. -/
def c2Round (w : WorldState) (now : Nat) : WorldState :=
  match dbFindTask w.tasks "task1" with
  | some row => processAiTask c2Config (fun _ => none) w row now
  | none => w

/-- A task whose captured `image_path` no longer exists. -/
def c3Task : AiTaskRow :=
  { id := "task3", emoji_id := "emoji3",
    image_path := "/data/emojiluna/missing.png", image_hash := "hash3",
    status := .pending, attempts := 0, last_error := "", next_retry_at := 0,
    created_at := 0, updated_at := 0 }

/-- World containing `c3Task` but no file at its `image_path`. -/
def c3World : WorldState :=
  { tasks := [c3Task], emojiMem := [], emojiRows := [], aiResults := []
    files := [] }

/-- An analysis result the vision client could return. -/
def c3Result : AIAnalyzeResult :=
  { name := "猫咪", category := "可爱", tags := ["动物", "猫"],
    description := "a cat" }

/-- A PROCESSING row left over from a crash. -/
def c4Stuck : AiTaskRow :=
  { id := "t4", emoji_id := "e4", image_path := "/data/emojiluna/e4.png",
    image_hash := "h4", status := .processing, attempts := 1,
    last_error := "", next_retry_at := 0, created_at := 0, updated_at := 0 }

/-- A terminal row that the startup reset must not touch. -/
def c4Done : AiTaskRow := { c4Stuck with id := "t4b", status := .succeeded }

/-- Table with one stuck and one terminal row. -/
def c4Db : TaskDb := [c4Stuck, c4Done]

/-- User options for an ingest with an empty category. -/
def c5Options : EmojiAddOptions :=
  { name := "cat", category := "", tags := ["动物"], description := "" }

/-- Fresh identifiers for the C5 ingest. -/
def c5Ids : FreshIds := { emojiId := "emoji5", taskId := "task5" }

/-- The empty initial state. -/
def emptyWorld : WorldState :=
  { tasks := [], emojiMem := [], emojiRows := [], aiResults := [], files := [] }

/-- The image ingested from `c5Options` on the cache-miss path. -/
def c5Emoji : EmojiItem :=
  { id := "emoji5", name := "cat", category := "其他",
    path := "/data/emojiluna/emoji5.jpeg", size := 3,
    mimeType := "image/jpeg", createdAt := 0, tags := ["动物"] }

/-- The task row enqueued by the C5 ingest. -/
def c5TaskRow : AiTaskRow :=
  { id := "task5", emoji_id := "emoji5",
    image_path := "/data/emojiluna/emoji5.jpeg", image_hash := "h5",
    status := .pending, attempts := 0, last_error := "", next_retry_at := 0,
    created_at := 0, updated_at := 0 }

/-- The state after the C5 ingest. -/
def c5World1 : WorldState :=
  { tasks := [c5TaskRow]
    emojiMem := [c5Emoji]
    emojiRows :=
      [{ id := "emoji5", name := "cat", category := "其他",
         path := "/data/emojiluna/emoji5.jpeg", size := 3,
         mime_type := "image/jpeg", created_at := 0, tags := ["动物"],
         image_hash := "h5" }]
    aiResults := []
    files := [("/data/emojiluna/emoji5.jpeg", [1, 2, 3])] }

/-- Upload options of spec scenario 1/2. -/
def c6Options : EmojiAddOptions :=
  { name := "猫咪", category := "", tags := [], description := "" }

/-- Fresh identifiers for the first C6 ingest. -/
def c6Ids : FreshIds := { emojiId := "emoji6", taskId := "task6" }

/-- Fresh identifiers for the second C6 ingest. -/
def c6Ids2 : FreshIds := { emojiId := "emoji6b", taskId := "task6b" }

/-- The image stored by the first C6 ingest. -/
def c6Emoji : EmojiItem :=
  { id := "emoji6", name := "猫咪", category := "其他",
    path := "/data/emojiluna/emoji6.jpeg", size := 2,
    mimeType := "image/jpeg", createdAt := 0, tags := [] }

/-- The state after the first C6 ingest. -/
def c6World1 : WorldState :=
  { tasks := []
    emojiMem := [c6Emoji]
    emojiRows :=
      [{ id := "emoji6", name := "猫咪", category := "其他",
         path := "/data/emojiluna/emoji6.jpeg", size := 2,
         mime_type := "image/jpeg", created_at := 0, tags := [],
         image_hash := "h6" }]
    aiResults := []
    files := [("/data/emojiluna/emoji6.jpeg", [9, 9])] }

/-- Number of stored files holding exactly the given bytes. -/
def countFilesWithBytes (files : List (String × List Nat))
    (bytes : List Nat) : Nat :=
  (files.filter (fun f => f.2 = bytes)).length

/-- A FAILED row with a non-zero scheduled retry time. -/
def c7Failed : AiTaskRow :=
  { id := "t7", emoji_id := "e7", image_path := "/data/emojiluna/e7.png",
    image_hash := "h7", status := .failed, attempts := 2,
    last_error := "boom", next_retry_at := 7, created_at := 0,
    updated_at := 0 }

/-- A PENDING row that `retryFailedTasks` must leave alone. -/
def c7Pending : AiTaskRow :=
  { c7Failed with
    id := "t7b", status := .pending, attempts := 0, last_error := "" }

/-- Table with one pending and one failed row. -/
def c7Db : TaskDb := [c7Pending, c7Failed]

/-- A paused worker runtime with default overrides. -/
def c8Runtime : WorkerRuntime :=
  { aiPaused := true, isDisposed := false, localActiveCount := 0,
    runtimeConcurrency := 0, runtimeBatchDelay := -1 }

/-- Three enqueued (PENDING, immediately eligible) tasks. -/
def c8Db : TaskDb :=
  [{ c1Task with id := "q1", emoji_id := "eq1" },
   { c1Task with id := "q2", emoji_id := "eq2" },
   { c1Task with id := "q3", emoji_id := "eq3" }]

/-- A stored emoji carrying a tag and a category distinct from its name. -/
def c10Emoji : EmojiItem :=
  { id := "emoji10", name := "笑脸", category := "可爱",
    path := "/data/emojiluna/emoji10.jpeg", size := 2,
    mimeType := "image/jpeg", createdAt := 0, tags := ["开心", "卡通"] }

/-- Storage containing only `c10Emoji`. -/
def c10Storage : List EmojiItem := [c10Emoji]

/-- Files backing `c10Storage`. -/
def c10Files : List (String × List Nat) :=
  [("/data/emojiluna/emoji10.jpeg", [7, 7])]

/-- The emoji after the worker applies `c3Result` to the C5 ingest. -/
def c5MergedEmoji : EmojiItem :=
  { id := "emoji5", name := "猫咪", category := "可爱",
    path := "/data/emojiluna/emoji5.jpeg", size := 3,
    mimeType := "image/jpeg", createdAt := 0, tags := ["动物", "猫"] }

/-! # Shared lemmas -/

/-- Finding after a set-by-primary-key is finding then patching, for patches
that preserve the key. -/
theorem dbFindTask_dbSetTask (db : TaskDb) (taskId : String)
    (patch : AiTaskRow → AiTaskRow) (hp : ∀ r, (patch r).id = r.id) :
    dbFindTask (dbSetTask db taskId patch) taskId =
      (dbFindTask db taskId).map patch := by
  induction db with
  | nil => rfl
  | cons r rest ih =>
    by_cases h : r.id = taskId
    · have h2 : (patch r).id = taskId := (hp r).trans h
      unfold dbSetTask dbFindTask
      simp only [List.map_cons, if_pos h]
      rw [List.find?_cons_of_pos _ (by simpa using h2),
        List.find?_cons_of_pos _ (by simpa using h)]
      rfl
    · unfold dbSetTask dbFindTask
      simp only [List.map_cons, if_neg h]
      rw [List.find?_cons_of_neg _ (by simpa using h),
        List.find?_cons_of_neg _ (by simpa using h)]
      exact ih

/-- The failure handler's patch preserves the primary key. -/
theorem completeFailTask_find (cfg : ServiceConfig) (w : WorldState)
    (task : AiTaskRow) (errMsg : String) (now : Nat) :
    dbFindTask (completeFailTask cfg w task errMsg now).tasks task.id =
      (dbFindTask w.tasks task.id).map (completeFailPatch cfg task errMsg now) := by
  unfold completeFailTask
  exact dbFindTask_dbSetTask _ _ _ (fun r => rfl)

/-! # C1 -/

/-- **C1** (code evidence): on the conditional-update path, `tryAtomicClaim`
reports success without inspecting the row-change count.  Starting from one
PENDING row, the first claim succeeds and flips the row to PROCESSING; the
second claim attempt over the now-PROCESSING row changes nothing (the table
is unchanged) yet also reports `true` — so of two claim attempts over the
same PENDING row, *both* report success, contradicting the claim protocol's
"success iff the update reports a row change". -/
theorem tryAtomicClaim_double_success :
    (tryAtomicClaim true [c1Task] "t1" 1).1 = true ∧
    (dbFindTask (tryAtomicClaim true [c1Task] "t1" 1).2 "t1").map
        (fun r => r.status) = some .processing ∧
    (tryAtomicClaim true (tryAtomicClaim true [c1Task] "t1" 1).2 "t1" 2).1 = true ∧
    (tryAtomicClaim true (tryAtomicClaim true [c1Task] "t1" 1).2 "t1" 2).2 =
      (tryAtomicClaim true [c1Task] "t1" 1).2 := by
  decide

/-! # C2 -/

/-- **C2**: when processing of a claimed task fails (vision client that
always fails), the failure handler increments `attempts` by one, moves the
task to FAILED when the new count reaches `aiMaxAttempts` and otherwise back
to PENDING with `next_retry_at = now + aiBackoffBase * 2^(attempts-1)`, and
records the error; with `aiMaxAttempts = 3`, `aiBackoffBase = 1000` the
task goes PENDING with delay 1000, PENDING with delay 2000, then FAILED with
`attempts = 3`. -/
theorem processAiTask_failure_backoff (cfg : ServiceConfig) (w : WorldState)
    (task : AiTaskRow) (now : Nat) (r0 : AiTaskRow)
    (hfile : (fsReadFile w.files task.image_path).isSome = true)
    (hfound : dbFindTask w.tasks task.id = some r0) :
    (∃ r1, dbFindTask (processAiTask cfg (fun _ => none) w task now).tasks
        task.id = some r1 ∧
      r1.attempts = task.attempts + 1 ∧
      r1.status = (if cfg.aiMaxAttempts ≤ task.attempts + 1 then
        AiTaskStatus.failed else AiTaskStatus.pending) ∧
      r1.next_retry_at = now + cfg.aiBackoffBase * 2 ^ task.attempts ∧
      r1.last_error = aiNullMessage) ∧
    ((dbFindTask (c2Round c2World 0).tasks "task1").map
        (fun r => (r.status, r.attempts, r.next_retry_at)) =
      some (AiTaskStatus.pending, 1, 1000) ∧
     (dbFindTask (c2Round (c2Round c2World 0) 1000).tasks "task1").map
        (fun r => (r.status, r.attempts, r.next_retry_at)) =
      some (AiTaskStatus.pending, 2, 3000) ∧
     (dbFindTask (c2Round (c2Round (c2Round c2World 0) 1000) 3000).tasks
        "task1").map (fun r => (r.status, r.attempts)) =
      some (AiTaskStatus.failed, 3)) := by
  constructor
  · obtain ⟨buf, hbuf⟩ := Option.isSome_iff_exists.mp hfile
    have hstep : processAiTask cfg (fun _ => none) w task now =
        completeFailTask cfg
          { w with tasks := dbSetTask w.tasks task.id (fun r =>
              { r with status := .processing, updated_at := now }) }
          task aiNullMessage now := by
      unfold processAiTask
      simp only [hbuf]
    rw [hstep, completeFailTask_find]
    have hmark := dbFindTask_dbSetTask w.tasks task.id
      (fun r => { r with status := AiTaskStatus.processing, updated_at := now })
      (fun r => rfl)
    rw [hmark, hfound]
    refine ⟨_, rfl, rfl, rfl, ?_, rfl⟩
    simp [completeFailPatch]
  · decide

/-- Witness for C2: the concrete three-round scenario, obtained by applying
the theorem at the fixture world. -/
theorem processAiTask_failure_backoff_witness :
    (dbFindTask (c2Round c2World 0).tasks "task1").map
        (fun r => (r.status, r.attempts, r.next_retry_at)) =
      some (AiTaskStatus.pending, 1, 1000) ∧
    (dbFindTask (c2Round (c2Round c2World 0) 1000).tasks "task1").map
        (fun r => (r.status, r.attempts, r.next_retry_at)) =
      some (AiTaskStatus.pending, 2, 3000) ∧
    (dbFindTask (c2Round (c2Round (c2Round c2World 0) 1000) 3000).tasks
        "task1").map (fun r => (r.status, r.attempts)) =
      some (AiTaskStatus.failed, 3) :=
  (processAiTask_failure_backoff c2Config c2World c2Task 0 c2Task
    (by decide) (by decide)).2

/-! # C3 -/

/-- **C3** (counterexample): a claimed task whose image file is missing is
*not* treated as a terminal failure.  With `aiMaxAttempts = 3` and a vision
client that would succeed, processing `c3Task` (attempts = 0, file absent)
leaves the row PENDING with `attempts = 1` and a retry scheduled — it is
re-queued, not FAILED. -/
theorem processAiTask_missing_file_not_terminal :
    (dbFindTask (processAiTask c2Config (fun _ => some c3Result) c3World
        c3Task 0).tasks "task3").map
      (fun r => (r.status, r.attempts, r.next_retry_at)) =
      some (AiTaskStatus.pending, 1, 1000) ∧
    AiTaskStatus.pending ≠ AiTaskStatus.failed := by
  decide

/-- **C3 (amended)**: a missing image file is handled by the ordinary
failure path: `attempts` is incremented, the Node ENOENT message is recorded
in `last_error`, and the task is re-queued PENDING with exponential backoff
until the new count reaches `aiMaxAttempts`, at which point it becomes
FAILED.  (It is terminal only on the attempt that exhausts the budget.) -/
theorem processAiTask_missing_file_retry (cfg : ServiceConfig)
    (w : WorldState) (task : AiTaskRow) (now : Nat)
    (analyze : List Nat → Option AIAnalyzeResult) (r0 : AiTaskRow)
    (hmiss : fsReadFile w.files task.image_path = none)
    (hfound : dbFindTask w.tasks task.id = some r0) :
    ∃ r1, dbFindTask (processAiTask cfg analyze w task now).tasks task.id =
        some r1 ∧
      r1.attempts = task.attempts + 1 ∧
      r1.last_error = enoentMessage task.image_path ∧
      r1.status = (if cfg.aiMaxAttempts ≤ task.attempts + 1 then
        AiTaskStatus.failed else AiTaskStatus.pending) ∧
      r1.next_retry_at = now + cfg.aiBackoffBase * 2 ^ task.attempts := by
  have hstep : processAiTask cfg analyze w task now =
      completeFailTask cfg
        { w with tasks := dbSetTask w.tasks task.id (fun r =>
            { r with status := .processing, updated_at := now }) }
        task (enoentMessage task.image_path) now := by
    unfold processAiTask
    simp only [hmiss]
  rw [hstep, completeFailTask_find]
  have hmark := dbFindTask_dbSetTask w.tasks task.id
    (fun r => { r with status := AiTaskStatus.processing, updated_at := now })
    (fun r => rfl)
  rw [hmark, hfound]
  refine ⟨_, rfl, rfl, rfl, rfl, ?_⟩
  simp [completeFailPatch]

/-- Witness for the amended C3 at the fixture world with a missing file. -/
theorem processAiTask_missing_file_retry_witness :
    ∃ r1, dbFindTask (processAiTask c2Config (fun _ => some c3Result)
        c3World c3Task 0).tasks c3Task.id = some r1 ∧
      r1.attempts = c3Task.attempts + 1 ∧
      r1.last_error = enoentMessage c3Task.image_path ∧
      r1.status = (if c2Config.aiMaxAttempts ≤ c3Task.attempts + 1 then
        AiTaskStatus.failed else AiTaskStatus.pending) ∧
      r1.next_retry_at = 0 + c2Config.aiBackoffBase * 2 ^ c3Task.attempts :=
  processAiTask_missing_file_retry c2Config c3World c3Task 0
    (fun _ => some c3Result) c3Task (by decide) (by decide)

/-! # C4 -/

/-- Setting a batch of rows by id equals one map over the table, for
key-preserving idempotent patches. -/
theorem foldl_dbSetTask_eq_map (rows : List AiTaskRow) (db : TaskDb)
    (patch : AiTaskRow → AiTaskRow) (hid : ∀ r, (patch r).id = r.id)
    (hidem : ∀ r, patch (patch r) = patch r) :
    rows.foldl (fun acc t => dbSetTask acc t.id patch) db =
      db.map (fun r =>
        if r.id ∈ rows.map (fun t => t.id) then patch r else r) := by
  induction rows generalizing db with
  | nil => simp
  | cons t rest ih =>
    simp only [List.foldl_cons, List.map_cons]
    rw [ih]
    unfold dbSetTask
    rw [List.map_map]
    congr 1
    funext r
    by_cases h : r.id = t.id
    · simp only [Function.comp_apply, if_pos h, hid, List.mem_cons]
      by_cases h2 : r.id ∈ rest.map (fun x => x.id)
      · simp [h, h2, hidem]
      · simp [h, h2, hidem]
    · simp only [Function.comp_apply, if_neg h, List.mem_cons]
      by_cases h2 : r.id ∈ rest.map (fun x => x.id)
      · simp [h2]
      · simp [h, h2]

/-- **C4**: on a worker startup (loop flag not yet set), the stuck-task reset
runs before the polling loop and flips every PROCESSING row back to PENDING,
leaving zero PROCESSING rows; and it runs exactly once per startup — the flag
is set, and a second invocation with the flag set leaves the table
untouched. -/
theorem startAiTaskProcessorStartup_resets (db : TaskDb) (now : Nat) :
    (∀ r ∈ (startAiTaskProcessorStartup false db now).2,
       r.status ≠ AiTaskStatus.processing) ∧
    (∀ r ∈ db, r.status = AiTaskStatus.processing →
       { r with status := AiTaskStatus.pending, updated_at := now } ∈
         (startAiTaskProcessorStartup false db now).2) ∧
    (startAiTaskProcessorStartup false db now).1 = true ∧
    (∀ db2 : TaskDb, ∀ now2 : Nat,
       startAiTaskProcessorStartup true db2 now2 = (true, db2)) := by
  have hreset : (startAiTaskProcessorStartup false db now).2 =
      db.map (fun r =>
        if r.id ∈ (dbGetTasksByStatus db .processing).map (fun t => t.id)
        then { r with status := AiTaskStatus.pending, updated_at := now }
        else r) := by
    show resetStuckTasks db now = _
    unfold resetStuckTasks
    exact foldl_dbSetTask_eq_map _ _ _ (fun r => rfl) (fun r => rfl)
  refine ⟨?_, ?_, rfl, fun db2 now2 => rfl⟩
  · intro r hr
    rw [hreset] at hr
    obtain ⟨r0, hr0, rfl⟩ := List.mem_map.mp hr
    by_cases h : r0.id ∈ (dbGetTasksByStatus db .processing).map (fun t => t.id)
    · simp [h]
    · simp only [if_neg h]
      intro hcontra
      exact h (List.mem_map.mpr ⟨r0,
        List.mem_filter.mpr ⟨hr0, by simp [hcontra]⟩, rfl⟩)
  · intro r hr hproc
    rw [hreset]
    have hmem : r.id ∈ (dbGetTasksByStatus db .processing).map (fun t => t.id) :=
      List.mem_map.mpr ⟨r, List.mem_filter.mpr ⟨hr, by simp [hproc]⟩, rfl⟩
    have himg := List.mem_map_of_mem (fun r =>
      if r.id ∈ (dbGetTasksByStatus db .processing).map (fun t => t.id)
      then { r with status := AiTaskStatus.pending, updated_at := now }
      else r) hr
    simpa [hmem] using himg

/-- Witness for C4 at the fixture table: the stuck row is reset and the
guarded re-invocation is a no-op. -/
theorem startAiTaskProcessorStartup_resets_witness :
    ({ c4Stuck with status := AiTaskStatus.pending, updated_at := 9 } ∈
      (startAiTaskProcessorStartup false c4Db 9).2) ∧
    startAiTaskProcessorStartup true c4Db 9 = (true, c4Db) :=
  ⟨(startAiTaskProcessorStartup_resets c4Db 9).2.1 c4Stuck (by decide) rfl,
   (startAiTaskProcessorStartup_resets c4Db 9).2.2.2 c4Db 9⟩

/-! # C7 -/

/-- **C7** (counterexample): `retryFailedTasks` does not set
`next_retry_at = 0`; it sets it to the current time.  Retrying one FAILED
row at time 5 leaves `next_retry_at = 5 ≠ 0`. -/
theorem retryFailedTasks_nonzero_next_retry :
    (retryFailedTasks [c7Failed] 5).2.map (fun r => r.next_retry_at) = [5] ∧
    (5 : Nat) ≠ 0 := by
  decide

/-- Counting against a predicate that splits into two disjoint predicates on
the list's members. -/
theorem countP_add_of_partition {α : Type} (l : List α) (p q s : α → Bool)
    (h : ∀ a ∈ l, p a = (q a || s a))
    (hdisj : ∀ a ∈ l, ¬(q a = true ∧ s a = true)) :
    l.countP p = l.countP q + l.countP s := by
  induction l with
  | nil => simp
  | cons a t ih =>
    simp only [List.countP_cons]
    rw [ih (fun x hx => h x (List.mem_cons_of_mem a hx))
      (fun x hx => hdisj x (List.mem_cons_of_mem a hx))]
    have ha := h a (List.mem_cons_self a t)
    have hd := hdisj a (List.mem_cons_self a t)
    cases hq : q a <;> cases hs : s a <;>
      simp [hq, hs] at ha hd ⊢ <;> simp [ha] <;> omega

/-- **C7 (amended)**: `retryFailedTasks` returns the number of FAILED rows
and sets each of them to PENDING with `attempts = 0` and `next_retry_at` set
to the call time (not 0; the row is still immediately eligible, since
eligibility is `next_retry_at ≤ now`); immediately afterwards the stats show
`failed = 0`, with every former FAILED row counted as pending and the other
status counts unchanged. -/
theorem retryFailedTasks_resets (db : TaskDb) (now : Nat)
    (hnd : (db.map (fun r => r.id)).Nodup) :
    (retryFailedTasks db now).1 = (dbGetTasksByStatus db .failed).length ∧
    (getAiTaskStats (retryFailedTasks db now).2).failed = 0 ∧
    (getAiTaskStats (retryFailedTasks db now).2).pending =
      (getAiTaskStats db).pending + (getAiTaskStats db).failed ∧
    (getAiTaskStats (retryFailedTasks db now).2).processing =
      (getAiTaskStats db).processing ∧
    (getAiTaskStats (retryFailedTasks db now).2).succeeded =
      (getAiTaskStats db).succeeded ∧
    (∀ r ∈ db, r.status = AiTaskStatus.failed →
      { r with status := AiTaskStatus.pending, attempts := 0,
               next_retry_at := now, updated_at := now } ∈
        (retryFailedTasks db now).2) := by
  by_cases hzero : (dbGetTasksByStatus db .failed).length = 0
  · have hnil : dbGetTasksByStatus db .failed = [] :=
      List.length_eq_zero.mp hzero
    have heq : retryFailedTasks db now = (0, db) := by
      unfold retryFailedTasks
      simp [hnil]
    rw [heq]
    have hfail0 : (getAiTaskStats db).failed = 0 := hzero
    refine ⟨hzero.symm, hfail0, by simp [hfail0], rfl, rfl, ?_⟩
    intro r hr hf
    exact absurd hf (by
      have := List.filter_eq_nil_iff.mp hnil r hr
      simpa using this)
  · have heq : retryFailedTasks db now =
        ((dbGetTasksByStatus db .failed).length,
         (dbGetTasksByStatus db .failed).foldl
           (fun acc t => dbSetTask acc t.id (fun r =>
             { r with status := AiTaskStatus.pending, attempts := 0,
                      next_retry_at := now, updated_at := now })) db) := by
      unfold retryFailedTasks
      simp [hzero]
    have hfold := foldl_dbSetTask_eq_map (dbGetTasksByStatus db .failed) db
      (fun r => { r with
        status := AiTaskStatus.pending, attempts := 0,
        next_retry_at := now, updated_at := now })
      (fun r => rfl) (fun r => rfl)
    have hclass : ∀ r ∈ db,
        (r.id ∈ (dbGetTasksByStatus db .failed).map (fun t => t.id) ↔
          r.status = AiTaskStatus.failed) := by
      intro r hr
      constructor
      · intro hmem
        obtain ⟨t, ht, hid⟩ := List.mem_map.mp hmem
        have ht2 := List.mem_filter.mp ht
        have hrt : r = t :=
          List.inj_on_of_nodup_map hnd hr ht2.1 (by
            show r.id = t.id
            exact hid.symm)
        rw [hrt]
        simpa using ht2.2
      · intro hf
        exact List.mem_map.mpr ⟨r,
          List.mem_filter.mpr ⟨hr, by simp [hf]⟩, rfl⟩
    rw [heq, hfold]
    have hlenfilter : ∀ (l : TaskDb) (s : AiTaskStatus),
        (l.filter (fun r => r.status = s)).length =
          l.countP (fun r => r.status = s) :=
      fun l s => (List.countP_eq_length_filter _ _).symm
    refine ⟨rfl, ?_, ?_, ?_, ?_, ?_⟩
    · show (List.filter _ (List.map _ db)).length = 0
      rw [hlenfilter, List.countP_map, List.countP_eq_zero]
      intro r hr
      by_cases hmem : r.id ∈ (dbGetTasksByStatus db .failed).map (fun t => t.id)
      · simp [Function.comp, hmem]
      · have hnf : ¬ r.status = AiTaskStatus.failed :=
          fun hf => hmem ((hclass r hr).mpr hf)
        simp [Function.comp, hmem, hnf]
    · show (List.filter _ (List.map _ db)).length =
        (List.filter _ db).length + (List.filter _ db).length
      rw [hlenfilter, hlenfilter, hlenfilter, List.countP_map]
      apply countP_add_of_partition
      · intro r hr
        by_cases hmem : r.id ∈ (dbGetTasksByStatus db .failed).map (fun t => t.id)
        · have hf : r.status = AiTaskStatus.failed := (hclass r hr).mp hmem
          simp [Function.comp, hmem, hf]
        · have hnf : ¬ r.status = AiTaskStatus.failed :=
            fun hf => hmem ((hclass r hr).mpr hf)
          simp [Function.comp, hmem, hnf]
      · intro r hr hcontra
        obtain ⟨h1, h2⟩ := hcontra
        simp only [decide_eq_true_eq] at h1 h2
        rw [h1] at h2
        exact absurd h2 (by decide)
    · show (List.filter _ (List.map _ db)).length = (List.filter _ db).length
      rw [hlenfilter, hlenfilter, List.countP_map]
      apply List.countP_congr
      intro r hr
      by_cases hmem : r.id ∈ (dbGetTasksByStatus db .failed).map (fun t => t.id)
      · have hf : r.status = AiTaskStatus.failed := (hclass r hr).mp hmem
        simp [Function.comp, hmem, hf]
      · simp [Function.comp, hmem]
    · show (List.filter _ (List.map _ db)).length = (List.filter _ db).length
      rw [hlenfilter, hlenfilter, List.countP_map]
      apply List.countP_congr
      intro r hr
      by_cases hmem : r.id ∈ (dbGetTasksByStatus db .failed).map (fun t => t.id)
      · have hf : r.status = AiTaskStatus.failed := (hclass r hr).mp hmem
        simp [Function.comp, hmem, hf]
      · simp [Function.comp, hmem]
    · intro r hr hf
      have hmem : r.id ∈ (dbGetTasksByStatus db .failed).map (fun t => t.id) :=
        (hclass r hr).mpr hf
      have himg := List.mem_map_of_mem (fun r =>
        if r.id ∈ (dbGetTasksByStatus db .failed).map (fun t => t.id)
        then { r with
          status := AiTaskStatus.pending, attempts := 0,
          next_retry_at := now, updated_at := now }
        else r) hr
      simpa [hmem] using himg

/-- Witness for the amended C7 at the two-row fixture table. -/
theorem retryFailedTasks_resets_witness :
    (retryFailedTasks c7Db 5).1 = (dbGetTasksByStatus c7Db .failed).length ∧
    (getAiTaskStats (retryFailedTasks c7Db 5).2).failed = 0 ∧
    (getAiTaskStats (retryFailedTasks c7Db 5).2).pending =
      (getAiTaskStats c7Db).pending + (getAiTaskStats c7Db).failed :=
  have h := retryFailedTasks_resets c7Db 5 (by decide)
  ⟨h.1, h.2.1, h.2.2.1⟩

/-! # C8 -/

/-- **C8**: while the worker is paused (or task persistence is disabled),
every loop iteration — over any number of iterations and any poll times —
leaves the runtime state and the task table untouched and dispatches
nothing: no task is fetched or claimed, no PENDING row becomes PROCESSING,
no model call is issued, and the stats are unchanged. -/
theorem workerLoop_paused_idle (cfg : ServiceConfig) (hasUpdateBuilder : Bool)
    (st : WorkerRuntime) (db : TaskDb) (times : List Nat)
    (h : st.aiPaused = true ∨ cfg.persistAiTasks = false) :
    workerLoopRun cfg hasUpdateBuilder st db times = (st, db, []) ∧
    getAiTaskStats (workerLoopRun cfg hasUpdateBuilder st db times).2.1 =
      getAiTaskStats db := by
  have hiter : workerLoopIteration cfg hasUpdateBuilder st db = fun _ => (st, db, []) := by
    funext now
    unfold workerLoopIteration
    have hcond : ¬cfg.persistAiTasks ∨ st.aiPaused := by
      rcases h with h | h
      · right; simp [h]
      · left; simp [h]
    rw [if_pos hcond]
  have hrun : workerLoopRun cfg hasUpdateBuilder st db times = (st, db, []) := by
    induction times with
    | nil => rfl
    | cons now rest ih =>
      show (let step := workerLoopIteration cfg hasUpdateBuilder st db now
            let next := workerLoopRun cfg hasUpdateBuilder step.1 step.2.1 rest
            (next.1, next.2.1, step.2.2 ++ next.2.2)) = (st, db, [])
      rw [hiter]
      simpa using ih
  exact ⟨hrun, by rw [hrun]⟩

/-- Witness for C8: a paused worker over three enqueued tasks and five poll
times dispatches nothing and the stats stay `pending = 3, processing = 0`. -/
theorem workerLoop_paused_idle_witness :
    workerLoopRun c2Config true c8Runtime c8Db [0, 1, 2, 3, 4] =
      (c8Runtime, c8Db, []) ∧
    getAiTaskStats c8Db =
      { pending := 3, processing := 0, succeeded := 0, failed := 0 } :=
  ⟨(workerLoop_paused_idle c2Config true c8Runtime c8Db [0, 1, 2, 3, 4]
      (Or.inl rfl)).1, by decide⟩

/-! # C10 -/

/-- **C10**: the lookup behind `GET /get/:id` (by id, then `getEmojiByName`)
only returns an image whose id, name, one of whose tags, or whose category
equals the path parameter; and whenever some stored image matches in any of
those ways, the lookup succeeds — so the endpoint serves image bytes also
when the parameter is a tag or a category name, and the response body is the
bytes of the matched image's file. -/
theorem getByIdOrName_matches (storage : List EmojiItem) (idParam : String)
    (files : List (String × List Nat)) :
    (∀ e, getByIdOrName storage idParam = some e →
       e.id = idParam ∨ e.name = idParam ∨ idParam ∈ e.tags ∨
         e.category = idParam) ∧
    ((∃ e ∈ storage, e.name = idParam ∨ idParam ∈ e.tags ∨
        e.category = idParam ∨ e.id = idParam) →
      ∃ e2, getByIdOrName storage idParam = some e2) ∧
    (∀ e buf, getByIdOrName storage idParam = some e →
      fsReadFile files e.path = some buf →
      getEndpoint storage files idParam =
        .bytes (jsOr e.mimeType (getImageType buf false)) buf) := by
  refine ⟨?_, ?_, ?_⟩
  · intro e he
    unfold getByIdOrName at he
    cases hid : getEmojiById storage idParam with
    | some e1 =>
      rw [hid] at he
      obtain rfl : e1 = e := by simpa using he
      have := List.find?_some hid
      left
      simpa using this
    | none =>
      rw [hid] at he
      simp only [] at he
      have := List.find?_some he
      simp only [decide_eq_true_eq, Bool.or_eq_true, decide_eq_true_eq,
        List.any_eq_true] at this
      rcases this with h1 | h2 | h3 | h4
      · exact Or.inr (Or.inl h1)
      · obtain ⟨t, ht, rfl⟩ := h2
        exact Or.inr (Or.inr (Or.inl ht))
      · exact Or.inr (Or.inr (Or.inr h3))
      · exact Or.inl h4
  · rintro ⟨e, he, hmatch⟩
    unfold getByIdOrName
    cases hid : getEmojiById storage idParam with
    | some e1 => exact ⟨e1, rfl⟩
    | none =>
      cases hname : getEmojiByName storage idParam with
      | some e2 => exact ⟨e2, rfl⟩
      | none =>
        exfalso
        have hnone := List.find?_eq_none.mp hname e he
        rcases hmatch with h | h | h | h <;> simp [h] at hnone
  · intro e buf he hbuf
    unfold getEndpoint
    rw [he]
    simp [hbuf]

/-- Witness for C10: the parameter `开心` matches only a tag of the stored
image, yet the lookup returns it and the endpoint serves its bytes. -/
theorem getByIdOrName_matches_witness :
    (∃ e2, getByIdOrName c10Storage "开心" = some e2) ∧
    getEndpoint c10Storage c10Files "开心" =
      .bytes "image/jpeg" [7, 7] :=
  ⟨(getByIdOrName_matches c10Storage "开心" c10Files).2.1
     ⟨c10Emoji, by decide, by decide⟩,
   by decide⟩

/-! # C9 -/

/-- **C9** (counterexample): on the model output `"0"`, the first extractor
(trim) already yields `"0"`, which is valid JSON (the number 0) — yet
`parseAIResult` returns null, because the loop's `if (parsed)` test rejects
falsy parses; so "returns the parse of the first extracted string that
yields valid JSON / null iff no strategy's output yields valid JSON" is
false as stated. -/
theorem parseAIResult_rejects_falsy_json :
    parseAIResult "0" = none ∧
    tryParse (extractorTrim "0") = some (JsonValue.num 0 0) :=
  ⟨rfl, rfl⟩

/-- **C9 (amended)**: `parseAIResult` applies the four extraction strategies
in order (trim; strip code fences; outermost-brace match; balanced-braces
scan) and returns the parse of the first extracted string whose parse is
valid JSON *and JS-truthy*; it returns null if and only if no strategy's
output parses to a truthy JSON value.  (Valid but falsy JSON — `null`,
`false`, `0`, `""` — is skipped like a parse failure.) -/
theorem parseAIResult_first_truthy (s : String) :
    (parseAIResult s =
      (match truthyParse (extractorTrim s) with
       | some v => some v
       | none =>
         match truthyParse (extractorStripFences s) with
         | some v => some v
         | none =>
           match truthyParse (extractorOuterBraces s) with
           | some v => some v
           | none => truthyParse (extractorBalancedBraces s))) ∧
    (parseAIResult s = none ↔
      truthyParse (extractorTrim s) = none ∧
      truthyParse (extractorStripFences s) = none ∧
      truthyParse (extractorOuterBraces s) = none ∧
      truthyParse (extractorBalancedBraces s) = none) := by
  have step : ∀ (ex : String → String) (rest : List (String → String))
      (t : String),
      parseAIResultAux (ex :: rest) t =
        (match truthyParse (ex t) with
         | some v => some v
         | none => parseAIResultAux rest t) := by
    intro ex rest t
    show (match tryParse (ex t) with
      | some parsed =>
        if jsTruthy parsed then some parsed else parseAIResultAux rest t
      | none => parseAIResultAux rest t) = _
    unfold truthyParse
    cases htp : tryParse (ex t) with
    | none => rfl
    | some v =>
      by_cases hv : jsTruthy v
      · simp [hv]
      · simp [hv]
  have hmain : parseAIResult s =
      (match truthyParse (extractorTrim s) with
       | some v => some v
       | none =>
         match truthyParse (extractorStripFences s) with
         | some v => some v
         | none =>
           match truthyParse (extractorOuterBraces s) with
           | some v => some v
           | none => truthyParse (extractorBalancedBraces s)) := by
    show parseAIResultAux extractors s = _
    rw [show extractors = [extractorTrim, extractorStripFences,
      extractorOuterBraces, extractorBalancedBraces] from rfl]
    rw [step, step, step, step]
    cases h1 : truthyParse (extractorTrim s) <;>
      cases h2 : truthyParse (extractorStripFences s) <;>
      cases h3 : truthyParse (extractorOuterBraces s) <;>
      cases h4 : truthyParse (extractorBalancedBraces s) <;>
      simp [parseAIResultAux]
  refine ⟨hmain, ?_⟩
  rw [hmain]
  cases h1 : truthyParse (extractorTrim s) <;>
    cases h2 : truthyParse (extractorStripFences s) <;>
    cases h3 : truthyParse (extractorOuterBraces s) <;>
    cases h4 : truthyParse (extractorBalancedBraces s) <;>
    simp

/-! # C5 -/

/-- `jsNewSetAux` with a seen-set equals the spec-side first-occurrence
dedup of the not-yet-seen elements. -/
theorem jsNewSetAux_eq_distinct (l : List String) : ∀ seen : List String,
    jsNewSetAux seen l =
      distinctFirstOccurrence (l.filter (fun x => x ∉ seen)) := by
  induction l with
  | nil => intro seen; simp [jsNewSetAux, distinctFirstOccurrence]
  | cons x xs ih =>
    intro seen
    by_cases hx : x ∈ seen
    · simp only [jsNewSetAux, if_pos hx]
      rw [ih seen]
      congr 1
      simp [List.filter_cons, hx]
    · simp only [jsNewSetAux, if_neg hx]
      rw [ih (x :: seen)]
      have hfil : (x :: xs).filter (fun y => y ∉ seen) =
          x :: xs.filter (fun y => y ∉ seen) := by
        simp [List.filter_cons, hx]
      rw [hfil]
      simp only [distinctFirstOccurrence]
      congr 1
      rw [List.filter_filter]
      congr 1
      apply List.filter_congr
      intro y hy
      by_cases h1 : y = x <;> by_cases h2 : y ∈ seen <;>
        simp [h1, h2, List.mem_cons]

/-- The JS `[...new Set(..)]` dedup equals the spec's first-occurrence
dedup. -/
theorem jsNewSet_eq_distinctFirstOccurrence (l : List String) :
    jsNewSet l = distinctFirstOccurrence l := by
  have h := jsNewSetAux_eq_distinct l []
  simpa [jsNewSet] using h

/-- `result.name || options.name` is the spec's name merge. -/
theorem jsOr_eq_specMergeName (u a : String) : jsOr a u = specMergeName u a := by
  unfold jsOr specMergeName
  by_cases h : a = "" <;> simp [h]

/-- `result.category || options.category || "其他"` is the spec's category
merge. -/
theorem jsOr_eq_specMergeCategory (u a : String) :
    jsOr a (jsOr u "其他") = specMergeCategory u a := by
  unfold jsOr specMergeCategory
  by_cases ha : a = "" <;> by_cases hu : u = "" <;> simp [ha, hu]

/-- On a cache-miss ingest with persistence on, `addEmoji` stores the image
with the user's name and tags and the user's category defaulted to
`"其他"`. -/
theorem addEmoji_cacheMiss_fields (cfg : ServiceConfig)
    (hashHex : List Nat → String) (analyze : List Nat → Option AIAnalyzeResult)
    (categorize : List Nat → Option String) (w : WorldState)
    (options : EmojiAddOptions) (imageData : List Nat) (ids : FreshIds)
    (now : Nat) (emoji : EmojiItem) (w1 : WorldState)
    (hdup : w.emojiRows.filter (fun r => r.image_hash = hashHex imageData) = [])
    (hmiss : w.aiResults.find? (fun r => r.hash = hashHex imageData) = none)
    (hpersist : cfg.persistAiTasks = true)
    (hok : addEmoji cfg hashHex analyze categorize w options imageData true
      ids now = .ok (emoji, w1)) :
    emoji.name = options.name ∧
    emoji.category = jsOr options.category "其他" ∧
    emoji.tags = options.tags := by
  simp only [addEmoji] at hok
  rw [hdup] at hok
  simp only [addEmojiAiBranch, hpersist, hmiss, and_true, if_pos] at hok
  rw [Except.ok.injEq, Prod.mk.injEq] at hok
  obtain ⟨h1, h2⟩ := hok
  rw [← h1]
  exact ⟨rfl, rfl, rfl⟩

/-- **C5**: the merged value applied to the image is
`name = name_a || name_u`, `category = category_a || category_u || "其他"`,
`tags = first-occurrence-distinct(tags_u ++ tags_a)` — both at the cache-hit
merge used by ingest and on worker success (where the stored image's fields
are the user's options with the category already defaulted, making the
worker's two-way fallback equal the spec's three-way one) — and the merge is
deterministic. -/
theorem mergeRule_matches_spec (options : EmojiAddOptions)
    (result : AIAnalyzeResult) (cfg : ServiceConfig)
    (hashHex : List Nat → String)
    (analyze : List Nat → Option AIAnalyzeResult)
    (categorize : List Nat → Option String) (w : WorldState)
    (imageData : List Nat) (ids : FreshIds) (now pnow : Nat)
    (task : AiTaskRow) (emoji : EmojiItem) (w1 w2 : WorldState)
    (hdup : w.emojiRows.filter (fun r => r.image_hash = hashHex imageData) = [])
    (hmiss : w.aiResults.find? (fun r => r.hash = hashHex imageData) = none)
    (hpersist : cfg.persistAiTasks = true)
    (hok : addEmoji cfg hashHex analyze categorize w options imageData true
      ids now = .ok (emoji, w1))
    (hfind : w2.emojiMem.find? (fun e => e.id = task.emoji_id) = some emoji)
    (hne : task.emoji_id ≠ "") :
    ((mergeCachedResult options result).name =
        specMergeName options.name result.name ∧
      (mergeCachedResult options result).category =
        specMergeCategory options.category result.category ∧
      (mergeCachedResult options result).tags =
        specMergeTags options.tags result.tags) ∧
    (∀ e ∈ (workerApplyResult w2 task result pnow).emojiMem,
        e.id = task.emoji_id →
          e.name = specMergeName options.name result.name ∧
          e.category = specMergeCategory options.category result.category ∧
          e.tags = specMergeTags options.tags result.tags) ∧
    (∀ options2 result2, options2 = options → result2 = result →
      mergeCachedResult options2 result2 = mergeCachedResult options result ∧
      workerApplyResult w2 task result2 pnow =
        workerApplyResult w2 task result pnow) := by
  obtain ⟨hn, hc, ht⟩ := addEmoji_cacheMiss_fields cfg hashHex analyze
    categorize w options imageData ids now emoji w1 hdup hmiss hpersist hok
  refine ⟨⟨jsOr_eq_specMergeName _ _, jsOr_eq_specMergeCategory _ _, ?_⟩,
    ?_, ?_⟩
  · show jsNewSet (options.tags ++ result.tags) = _
    rw [jsNewSet_eq_distinctFirstOccurrence]
    rfl
  · intro e he heid
    have hmem : (workerApplyResult w2 task result pnow).emojiMem =
        w2.emojiMem.map (fun e0 =>
          if e0.id = task.emoji_id then
            { e0 with
              name := jsOr result.name emoji.name
              category := jsOr result.category emoji.category
              tags := jsNewSet (emoji.tags ++ result.tags) }
          else e0) := by
      unfold workerApplyResult
      rw [if_neg hne, hfind]
      unfold updateEmojiInfo
      rw [hfind]
      by_cases himg : task.image_hash = "" <;> simp [himg]
    rw [hmem] at he
    obtain ⟨e0, he0, heq⟩ := List.mem_map.mp he
    by_cases h0 : e0.id = task.emoji_id
    · rw [if_pos h0] at heq
      rw [← heq]
      refine ⟨?_, ?_, ?_⟩
      · show jsOr result.name emoji.name = _
        rw [hn]
        exact jsOr_eq_specMergeName _ _
      · show jsOr result.category emoji.category = _
        rw [hc]
        exact jsOr_eq_specMergeCategory _ _
      · show jsNewSet (emoji.tags ++ result.tags) = _
        rw [ht, jsNewSet_eq_distinctFirstOccurrence]
        rfl
    · rw [if_neg h0] at heq
      rw [← heq] at heid
      exact absurd heid h0
  · intro options2 result2 h1 h2
    rw [h1, h2]
    exact ⟨rfl, rfl⟩

/-- Witness for C5: the worker applies `c3Result` to the ingested `c5Emoji`
and the stored fields equal the spec merge of the original user options. -/
theorem mergeRule_matches_spec_witness :
    c5MergedEmoji.name = specMergeName c5Options.name c3Result.name ∧
    c5MergedEmoji.category =
      specMergeCategory c5Options.category c3Result.category ∧
    c5MergedEmoji.tags = specMergeTags c5Options.tags c3Result.tags :=
  (mergeRule_matches_spec c5Options c3Result c2Config (fun _ => "h5")
    (fun _ => none) (fun _ => none) emptyWorld [1, 2, 3] c5Ids 0 100
    c5TaskRow c5Emoji c5World1 c5World1 rfl rfl rfl rfl (by decide)
    (by decide)).2.1 c5MergedEmoji (by decide) (by decide)

/-! # C6 -/

/-- Whatever the AI branch of `addEmoji` does on success (cache hit, task
insert, inline analysis, auto-categorize, or nothing), it touches only the
task table and options — never the image rows, the files, or the in-memory
index. -/
theorem addEmojiAiBranch_preserves (cfg : ServiceConfig)
    (analyze : List Nat → Option AIAnalyzeResult)
    (categorize : List Nat → Option String) (w1 : WorldState)
    (options : EmojiAddOptions) (imageData : List Nat) (aiAnalysis : Bool)
    (id taskId imageHash filePath : String) (now : Nat)
    (fo : EmojiAddOptions) (w2 : WorldState)
    (hok : addEmojiAiBranch cfg analyze categorize w1 options imageData
      aiAnalysis id taskId imageHash filePath now = .ok (fo, w2)) :
    w2.emojiRows = w1.emojiRows ∧ w2.files = w1.files ∧
    w2.emojiMem = w1.emojiMem := by
  unfold addEmojiAiBranch at hok
  by_cases h1 : (aiAnalysis : Prop) ∧ (cfg.persistAiTasks : Prop)
  · rw [if_pos h1] at hok
    cases hfind : w1.aiResults.find? (fun r => r.hash = imageHash) with
    | some cached =>
      rw [hfind] at hok
      rw [Except.ok.injEq, Prod.mk.injEq] at hok
      rw [← hok.2]
      exact ⟨rfl, rfl, rfl⟩
    | none =>
      rw [hfind] at hok
      rw [Except.ok.injEq, Prod.mk.injEq] at hok
      rw [← hok.2]
      exact ⟨rfl, rfl, rfl⟩
  · rw [if_neg h1] at hok
    by_cases h2 : (aiAnalysis : Prop)
    · rw [if_pos h2] at hok
      cases han : analyze imageData with
      | some r =>
        rw [han] at hok
        rw [Except.ok.injEq, Prod.mk.injEq] at hok
        rw [← hok.2]
        exact ⟨rfl, rfl, rfl⟩
      | none =>
        rw [han] at hok
        exact absurd hok (by simp)
    · rw [if_neg h2] at hok
      by_cases h3 : (cfg.autoCategorize : Prop) ∧ options.category = ""
      · rw [if_pos h3] at hok
        cases hcat : categorize imageData with
        | some category =>
          rw [hcat] at hok
          rw [Except.ok.injEq, Prod.mk.injEq] at hok
          rw [← hok.2]
          exact ⟨rfl, rfl, rfl⟩
        | none =>
          rw [hcat] at hok
          exact absurd hok (by simp)
      · rw [if_neg h3] at hok
        rw [Except.ok.injEq, Prod.mk.injEq] at hok
        rw [← hok.2]
        exact ⟨rfl, rfl, rfl⟩

/-- The duplicate-reject message always contains the marker the upload
handler maps to HTTP 409. -/
theorem dupMessage_includes_marker (name : String) :
    jsIncludes (duplicateMessage name) "表情包已存在" := by
  unfold jsIncludes duplicateMessage
  refine ⟨[], (": 与现有表情包 ".data ++ name.data ++ " 重复".data), ?_⟩
  simp only [List.nil_append, String.data_append]
  simp [List.append_assoc]

/-- **C6**: starting from a state holding no row and no file for some bytes,
a successful ingest of those bytes leaves exactly one file and one image row
for that content, and a *second* ingest of the same bytes — with any
options, AI flag, fresh ids, vision behaviour, or time — fails with the
DUPLICATE message naming the stored image, which the upload endpoint maps to
HTTP 409.  The failing call returns only the error (mirroring that the
source throws before its file write and row insert), so the second ingest
adds no row and no file. -/
theorem addEmoji_duplicate_rejected (cfg : ServiceConfig)
    (hashHex : List Nat → String)
    (analyze analyze2 : List Nat → Option AIAnalyzeResult)
    (categorize categorize2 : List Nat → Option String)
    (w : WorldState) (options options2 : EmojiAddOptions)
    (imageData : List Nat) (aiAnalysis aiAnalysis2 : Bool)
    (ids ids2 : FreshIds) (now now2 : Nat) (emoji : EmojiItem)
    (w1 : WorldState)
    (hdup0 : w.emojiRows.filter (fun r => r.image_hash = hashHex imageData) = [])
    (hfresh : ∀ r ∈ w.emojiRows, r.id ≠ ids.emojiId)
    (hfile0 : countFilesWithBytes w.files imageData = 0)
    (hok : addEmoji cfg hashHex analyze categorize w options imageData
      aiAnalysis ids now = .ok (emoji, w1))
    (hn1 : ¬ jsIncludes (duplicateMessage emoji.name) "No file uploaded")
    (hn2 : ¬ jsIncludes (duplicateMessage emoji.name) "parsing failed") :
    addEmoji cfg hashHex analyze2 categorize2 w1 options2 imageData
      aiAnalysis2 ids2 now2 = .error (duplicateMessage emoji.name) ∧
    uploadErrorStatus (duplicateMessage emoji.name) = 409 ∧
    countFilesWithBytes w1.files imageData = 1 ∧
    (w1.emojiRows.filter (fun r =>
      r.image_hash = hashHex imageData)).length = 1 := by
  simp only [addEmoji] at hok
  rw [hdup0] at hok
  simp only [] at hok
  split at hok
  · exact absurd hok (by simp)
  · rename_i fo w2 heq
    rw [Except.ok.injEq, Prod.mk.injEq] at hok
    obtain ⟨hemoji, hw1⟩ := hok
    have hpres := addEmojiAiBranch_preserves _ _ _ _ _ _ _ _ _ _ _ _ _ _ heq
    simp only [] at hpres
    obtain ⟨hrows2, hfiles2, hmem2⟩ := hpres
    have hname : fo.name = emoji.name := by rw [← hemoji]
    have hrows1 : w1.emojiRows = dbUpsertEmojiRow w2.emojiRows
        { id := ids.emojiId, name := fo.name,
          category := jsOr fo.category "其他",
          path := cfg.storagePath ++ "/" ++ ids.emojiId ++ "." ++
            getImageType imageData true,
          size := imageData.length,
          mime_type := getImageType imageData false, created_at := now,
          tags := fo.tags, image_hash := hashHex imageData } := by
      rw [← hw1]
    have hany : w2.emojiRows.any (fun r => r.id = ids.emojiId) = false := by
      rw [hrows2, List.any_eq_false]
      intro r hr
      simpa using hfresh r hr
    have hfilter1 : w1.emojiRows.filter (fun r =>
        r.image_hash = hashHex imageData) =
        [{ id := ids.emojiId, name := fo.name,
           category := jsOr fo.category "其他",
           path := cfg.storagePath ++ "/" ++ ids.emojiId ++ "." ++
             getImageType imageData true,
           size := imageData.length,
           mime_type := getImageType imageData false, created_at := now,
           tags := fo.tags, image_hash := hashHex imageData }] := by
      rw [hrows1]
      unfold dbUpsertEmojiRow
      rw [if_neg (by simp [hany])]
      rw [List.filter_append, hrows2, hdup0]
      simp
    refine ⟨?_, ?_, ?_, ?_⟩
    · simp only [addEmoji]
      rw [hfilter1]
      simp [hname]
    · unfold uploadErrorStatus
      rw [if_neg (by
        intro hcontra
        rcases hcontra with h | h
        · exact hn1 h
        · exact hn2 h)]
      rw [if_pos (dupMessage_includes_marker emoji.name)]
    · have hfiles1 : w1.files = w2.files := by rw [← hw1]
      rw [hfiles1, hfiles2]
      unfold countFilesWithBytes at hfile0 ⊢
      rw [List.filter_append, List.length_append, hfile0]
      simp
    · rw [hfilter1]
      rfl

set_option maxRecDepth 4000 in
/-- Witness for C6: upload the same two bytes twice from the empty state;
the second ingest fails with the 409-mapped DUPLICATE message naming 猫咪
and the filesystem still holds exactly one file for that content. -/
theorem addEmoji_duplicate_rejected_witness :
    addEmoji c2Config (fun _ => "h6") (fun _ => none) (fun _ => none)
      c6World1 c6Options [9, 9] true c6Ids2 50 =
      .error (duplicateMessage c6Emoji.name) ∧
    uploadErrorStatus (duplicateMessage c6Emoji.name) = 409 ∧
    countFilesWithBytes c6World1.files [9, 9] = 1 ∧
    (c6World1.emojiRows.filter (fun r => r.image_hash = "h6")).length = 1 :=
  addEmoji_duplicate_rejected c2Config (fun _ => "h6") (fun _ => none)
    (fun _ => none) (fun _ => none) (fun _ => none) emptyWorld c6Options
    c6Options [9, 9] false true c6Ids c6Ids2 0 50 c6Emoji c6World1 rfl
    (by intro r hr; exact absurd hr (by simp [emptyWorld])) rfl rfl
    (by decide) (by decide)
